import Mathlib

/-!
A verification development for the two Maya publishing plugins of the
colorbleed-config repository:

* `colorbleed/plugins/maya/publish/collect_instances.py` — the
  `CollectInstances` collector plugin, and
* `colorbleed/plugins/maya/create/colorbleed_yeti_rig.py` — the
  `CreateYetiRig` creator plugin.

The Maya scene state reachable through `maya.cmds`, and the pyblish
context, are modelled explicitly: an `ObjectSet` record holds exactly
the facts the collector queries about one objectSet returned by the
initial `cmds.ls("*.id", ...)` scan, and a `Scene` additionally holds
the structural scene queries (`cmds.ls(..., long=True)`,
`cmds.listRelatives(..., allDescendents=True, fullPath=True)`,
`cmds.ls(..., noIntermediate=True, long=True)`) as opaque functions.
Python values that flow through the collector are modelled by `PyVal`,
Python dicts by insertion-ordered association lists, and the Python 2
ordering used by `sorted` on the family keys by a lexicographic sort
key (`None` sorts below numbers, numbers below lists, lists below
strings, matching CPython 2 cross-type comparison for these types).
Python's `sorted` is a stable sort by a total preorder; it is modelled
by the stable `List.insertionSort`, which agrees with any stable sort
for the same total preorder.
-/

/-- A Python value as it occurs in this code base: an attribute value read
from Maya (string, boolean, integer or string list) or Python `None`. -/
inductive PyVal where
  | none
  | bool (b : Bool)
  | int (n : Int)
  | strList (l : List String)
  | str (s : String)
deriving Repr, DecidableEq

/-- A Python `dict` with string keys, as an insertion-ordered association list. -/
abbrev Dict := List (String × PyVal)

/-- Python `d.get(k)` / `d[k]`: the value at the first (hence, for dicts built
by `Dict.set`, unique) entry with the given key. -/
def Dict.get : Dict → String → Option PyVal
  | [], _ => Option.none
  | (k, v) :: rest, a => if k = a then some v else Dict.get rest a

/-- Python `d[k] = v`: replace the value in place when the key is present,
append a new entry otherwise. -/
def Dict.set : Dict → String → PyVal → Dict
  | [], a, v => [(a, v)]
  | (k, w) :: rest, a, v =>
    if k = a then (k, v) :: rest else (k, w) :: Dict.set rest a v

/-- One objectSet of the `cmds.ls("*.id", long=True, type="objectSet",
recursive=True, objectsOnly=True)` scan result, with the facts the collector
queries about it: its long name, its short name (`cmds.ls(objset,
long=False)[0]`), whether `cmds.attributeQuery("id"/"family", exists=True)`
holds, the value of its `id` attribute, its user-defined attributes
(`cmds.listAttr(objset, userDefined=True)`, where a value of `Option.none`
models a `cmds.getAttr` call that raises), and its member query result
(`cmds.sets(objset, query=True)`, where `Option.none` models Maya's `None`
for an empty set). -/
structure ObjectSet where
  name : String
  shortName : String
  hasId : Bool
  idValue : PyVal
  hasFamily : Bool
  userAttrs : List (String × Option PyVal)
  members : Option (List String)
deriving Repr, DecidableEq

/-- The Maya scene as the collector sees it: the objectSet scan result plus
the three structural queries used on member lists. -/
structure Scene where
  sets : List ObjectSet
  lsLong : List String → List String
  listDescendents : List String → List String
  lsNoIntermediate : List String → List String

/-- A pyblish instance as the collector builds it: the name passed to
`context.create_instance`, the node list assigned by `instance[:] = ...`,
and its data dict. -/
structure Instance where
  name : PyVal
  nodes : List String
  data : Dict
deriving Repr, DecidableEq

/-- The collector's mutable state: the pyblish context (its instance list)
and the log messages emitted so far. -/
structure St where
  context : List Instance
  logs : List String
deriving Repr, DecidableEq

/-- Python's `node.split("|")` at the character-list level: split on a
separator character, keeping empty segments (so `"".split` is `[""]`). -/
def splitOnChar (sep : Char) : List Char → List (List Char)
  | [] => [[]]
  | c :: cs =>
    match splitOnChar sep cs with
    | [] => [[]]
    | h :: t => if c = sep then [] :: h :: t else (c :: h) :: t

/-- Python `node.split("|")`. -/
def splitPipe (s : String) : List String :=
  (splitOnChar (Char.ofNat 124) s.data).map fun l => String.mk l

/-- Python `"|".join(parts)`. -/
def joinPipe : List String → String
  | [] => ""
  | a :: rest => rest.foldl (fun acc x => acc ++ "|" ++ x) a

/-- Python `", ".join(parts)` (used only for display of list values). -/
def joinComma : List String → String
  | [] => ""
  | a :: rest => rest.foldl (fun acc x => acc ++ ", " ++ x) a

/-- Python `"%s" % v` as used in the collector's log messages. -/
def PyVal.toDisplay : PyVal → String
  | PyVal.none => "None"
  | PyVal.bool b => if b then "True" else "False"
  | PyVal.int n => toString n
  | PyVal.strList l => "[" ++ joinComma l ++ "]"
  | PyVal.str s => s

/-- The parent paths one node contributes inside `get_all_parents`:
`["|".join(splitted[0:i]) for i in range(2, len(splitted))]`. -/
def nodeParents (node : String) : List String :=
  let splitted := splitPipe node
  (List.range' 2 (splitted.length - 2)).map fun i => joinPipe (splitted.take i)

namespace CollectInstances

/-- `CollectInstances.get_all_parents`: accumulate each node's parent paths
by string splitting, then `list(set(parents))` (modelled by `dedup`; the
order of a Python `set` is unspecified, so properties of the result are
stated up to membership). -/
def get_all_parents (nodes : List String) : List String :=
  (nodes.foldl (fun parents node => parents ++ nodeParents node) []).dedup

end CollectInstances

/-- The value stored in `data[attr]` after `cmds.getAttr`: the read value,
or Python `None` when the read raised and the `except` branch ran. -/
def readValue : Option PyVal → PyVal
  | some v => v
  | Option.none => PyVal.none

/-- The collector's user-attribute loop: `for attr in listAttr(...): data[attr] = value`. -/
def applyUserAttrs (d : Dict) (attrs : List (String × Option PyVal)) : Dict :=
  attrs.foldl (fun d p => Dict.set d p.1 (readValue p.2)) d

/-- The legacy remap: `if "active" in data: data["publish"] = data["active"]`. -/
def applyActiveRemap (d : Dict) : Dict :=
  match Dict.get d "active" with
  | some v => Dict.set d "publish" v
  | Option.none => d

/-- Python `d.update(src)`. -/
def updateDict (d : Dict) (src : Dict) : Dict :=
  src.foldl (fun d p => Dict.set d p.1 p.2) d

/-- The rank of a value in CPython 2 cross-type comparison, restricted to the
types of `PyVal`: `None` below numbers, numbers below lists (`"list"`),
lists below strings (`"str"`, compared by type name). -/
def pyRank : PyVal → Nat
  | PyVal.none => 0
  | PyVal.bool _ => 1
  | PyVal.int _ => 1
  | PyVal.strList _ => 2
  | PyVal.str _ => 3

/-- The numeric value used when two numbers are compared (`True == 1`). -/
def pyNum : PyVal → Int
  | PyVal.bool b => if b then 1 else 0
  | PyVal.int n => n
  | _ => 0

/-- The list payload used when two lists are compared. -/
def pyListVal : PyVal → List String
  | PyVal.strList l => l
  | _ => []

/-- The string payload used when two strings are compared. -/
def pyStrVal : PyVal → String
  | PyVal.str s => s
  | _ => ""

/-- Strict lexicographic comparison of lists from a strict comparison of
elements (the shape shared by Python 2 comparison of `str` and of lists). -/
def lexLT (lt : α → α → Bool) : List α → List α → Bool
  | [], [] => false
  | [], _ :: _ => true
  | _ :: _, [] => false
  | a :: as, b :: bs =>
    if lt a b then true
    else if lt b a then false
    else lexLT lt as bs

/-- Python 2 `<` on single characters, by code point. -/
def charLT (a b : Char) : Bool := decide (a.toNat < b.toNat)

/-- Python 2 `<` on strings. -/
def strLT (a b : String) : Bool := lexLT charLT a.data b.data

/-- Python 2 `<` on lists of strings (lexicographic, element-wise). -/
def strsLT : List String → List String → Bool := lexLT strLT

/-- One component of the Python 2 comparison key of a `PyVal`. -/
inductive Comp where
  | n (x : Nat)
  | i (x : Int)
  | ls (x : List String)
  | s (x : String)
deriving Repr, DecidableEq

/-- Strict comparison of key components: distinct component kinds are
ordered by kind, equal kinds by their payload. -/
def compLT : Comp → Comp → Bool
  | Comp.n x, Comp.n y => decide (x < y)
  | Comp.n _, _ => true
  | _, Comp.n _ => false
  | Comp.i x, Comp.i y => decide (x < y)
  | Comp.i _, _ => true
  | _, Comp.i _ => false
  | Comp.ls x, Comp.ls y => strsLT x y
  | Comp.ls _, _ => true
  | _, Comp.ls _ => false
  | Comp.s x, Comp.s y => strLT x y

/-- The Python 2 comparison key of a value: type rank first (`None` below
numbers below lists below strings, as in CPython 2 cross-type comparison),
then numeric value, then list payload, then string payload. -/
def toComps (v : PyVal) : List Comp :=
  [Comp.n (pyRank v), Comp.i (pyNum v), Comp.ls (pyListVal v), Comp.s (pyStrVal v)]

/-- Python 2 `<` on the values that can appear as a family sort key. -/
def pyLT (a b : PyVal) : Bool := lexLT compLT (toComps a) (toComps b)

/-- Python 2 `<=` on family sort keys, as `sorted` observes it: `a <= b`
iff not `b < a`. -/
def py2LE (a b : PyVal) : Bool := !(pyLT b a)

/-- The collector's `sort_by_family` key function:
`instance.data.get("families", instance.data.get("family"))`, with `None`
(i.e. `PyVal.none`) when both keys are absent. -/
def sort_by_family (inst : Instance) : PyVal :=
  match Dict.get inst.data "families" with
  | some v => v
  | Option.none =>
    match Dict.get inst.data "family" with
    | some v => v
    | Option.none => PyVal.none

/-- The ordering on instances induced by `sort_by_family`. -/
def instanceLE (a b : Instance) : Prop :=
  py2LE (sort_by_family a) (sort_by_family b) = true

instance : DecidableRel instanceLE := fun a b =>
  instDecidableEqBool (py2LE (sort_by_family a) (sort_by_family b)) true

/-- The data dict the collector builds for one objectSet: every user-defined
attribute applied in order (unreadable reads degraded to `None` by
`readValue`), then the legacy `active` to `publish` remap. -/
def collectData (objset : ObjectSet) : Dict :=
  applyActiveRemap (applyUserAttrs [] objset.userAttrs)

/-- `data.get("name", name)` where `name` is the objectSet's short name:
the value passed to `context.create_instance`. -/
def instanceName (objset : ObjectSet) : PyVal :=
  match Dict.get (collectData objset) "name" with
  | some v => v
  | Option.none => PyVal.str objset.shortName

/-- The instance the collector builds for one marked, non-empty objectSet
whose member query returned `ms`: `members = cmds.ls(members, long=True)`,
descendants via `listRelatives` filtered by `ls(noIntermediate=True)`,
parents via string splitting, `list(set(...))` of the union as the node
list, and the data dict of `create_instance` (holding the instance name)
assigned `setMembers` and then updated with the collected data. -/
def builtInstance (scene : Scene) (objset : ObjectSet) (ms : List String) : Instance :=
  let members := scene.lsLong ms
  let children := scene.lsNoIntermediate (scene.listDescendents members)
  let parents := CollectInstances.get_all_parents members
  let members_hierarchy := (members ++ children ++ parents).dedup
  let d1 := Dict.set [("name", instanceName objset)] "setMembers" (PyVal.strList members)
  { name := instanceName objset,
    nodes := members_hierarchy,
    data := updateDict d1 (collectData objset) }

/-- `instance.data["name"]` as rendered in the final info log message. -/
def foundDisplay (inst : Instance) : String :=
  match Dict.get inst.data "name" with
  | some v => PyVal.toDisplay v
  | Option.none => ""

/-- The marker test of the collector: the objectSet has an `id` attribute
and its value is exactly `"pyblish.avalon.instance"`. -/
def isMarked (objset : ObjectSet) : Prop :=
  objset.hasId = true ∧ objset.idValue = PyVal.str "pyblish.avalon.instance"

instance (objset : ObjectSet) : Decidable (isMarked objset) :=
  instDecidableAnd

/-- The loop body of `CollectInstances.process` for one objectSet of the
scan result: skip unmarked sets, assert the `family` attribute, skip empty
sets with a warning, and otherwise build the instance and append it to the
context.  (`context.create_instance(name)` is modelled, per the pyblish
plugin contract the spec describes, as creating an instance whose data
holds its name and appending it to the context.) -/
def collectSet (scene : Scene) (st : St) (objset : ObjectSet) : Except String St :=
  if objset.hasId = false then Except.ok st
  else if objset.idValue ≠ PyVal.str "pyblish.avalon.instance" then Except.ok st
  else if objset.hasFamily = false then
    Except.error ("\"" ++ objset.name ++ "\" was missing a family")
  else
    match objset.members with
    | Option.none =>
      Except.ok { st with
        logs := st.logs ++ ["Skipped empty instance: \"" ++ objset.name ++ "\" "] }
    | some ms =>
      let inst := builtInstance scene objset ms
      Except.ok { context := st.context ++ [inst],
                  logs := st.logs ++ ["Creating instance for " ++ objset.name,
                                      "Found: \"" ++ foundDisplay inst ++ "\" "] }

/-- The collector's `for objset in objectset:` loop, threading the context
and stopping at the first raised `AssertionError`. -/
def processSets (scene : Scene) : St → List ObjectSet → Except String St
  | st, [] => Except.ok st
  | st, s :: rest =>
    match collectSet scene st s with
    | Except.ok st1 => processSets scene st1 rest
    | Except.error e => Except.error e

namespace CollectInstances

/-- `CollectInstances.process`: run the loop over the scan result, then
`context[:] = sorted(context, key=sort_by_family)`. -/
def process (scene : Scene) (st : St) : Except String St :=
  match processSets scene st scene.sets with
  | Except.ok st1 =>
    Except.ok { st1 with context := List.insertionSort instanceLE st1.context }
  | Except.error e => Except.error e

end CollectInstances

/-- The Maya scene state the creator plugin touches: which objectSets have
been created (in order), and which forced set memberships exist. -/
structure MayaState where
  createdSets : List String
  membership : List (String × String)
deriving Repr, DecidableEq

/-- Modelled from the spec: the shared creator base behavior
(`avalon.maya.Creator.process`), which is not part of this repository.
Per the spec it creates one host grouping object for the instance and
returns it. -/
def baseCreatorProcess (instName : String) (st : MayaState) : MayaState × String :=
  ({ st with createdSets := st.createdSets ++ [instName] }, instName)

/-- `cmds.sets(name=nm, empty=True)`: create an empty objectSet and return it. -/
def sets_create_empty (nm : String) (st : MayaState) : MayaState × String :=
  ({ st with createdSets := st.createdSets ++ [nm] }, nm)

/-- `cmds.sets(member, forceElement=target)`: force `member` into `target`. -/
def sets_forceElement (member target : String) (st : MayaState) : MayaState :=
  { st with membership := st.membership ++ [(member, target)] }

namespace CreateYetiRig

/-- `CreateYetiRig.process`: run the base creator, create the empty
`input_SET`, and force it into the instance set. -/
def process (instName : String) (st : MayaState) : MayaState :=
  let p1 := baseCreatorProcess instName st
  let p2 := sets_create_empty "input_SET" p1.1
  sets_forceElement p2.2 p1.2 p2.1

end CreateYetiRig

/-! ### Concrete scenes used to instantiate the theorems -/

/-- A scene whose structural queries are the identity on the member list
and report no descendants (single nodes at root level). -/
def idScene (sets : List ObjectSet) : Scene :=
  { sets := sets
    lsLong := fun l => l
    listDescendents := fun _ => []
    lsNoIntermediate := fun l => l }

/-- An objectSet from the scan that carries no `id` attribute. -/
def unmarkedSet : ObjectSet :=
  { name := "|noId", shortName := "noId", hasId := false, idValue := PyVal.none,
    hasFamily := false, userAttrs := [], members := Option.none }

/-- A well-formed marked objectSet with a family and one member. -/
def demoSet : ObjectSet :=
  { name := "|demo", shortName := "demo", hasId := true,
    idValue := PyVal.str "pyblish.avalon.instance", hasFamily := true,
    userAttrs := [("family", some (PyVal.str "model"))],
    members := some ["|grp|mesh"] }

/-- A marked objectSet missing the `family` attribute. -/
def noFamilySet : ObjectSet :=
  { name := "|noFam", shortName := "noFam", hasId := true,
    idValue := PyVal.str "pyblish.avalon.instance", hasFamily := false,
    userAttrs := [], members := Option.none }

/-- A marked objectSet with a family whose member query returned `None`. -/
def emptySet : ObjectSet :=
  { name := "|empty", shortName := "empty", hasId := true,
    idValue := PyVal.str "pyblish.avalon.instance", hasFamily := true,
    userAttrs := [("family", some (PyVal.str "model"))], members := Option.none }

/-- A marked objectSet carrying an `active` attribute. -/
def activeSet : ObjectSet :=
  { name := "|act", shortName := "act", hasId := true,
    idValue := PyVal.str "pyblish.avalon.instance", hasFamily := true,
    userAttrs := [("family", some (PyVal.str "anim")), ("active", some (PyVal.bool true))],
    members := some ["|a"] }

/-- A marked objectSet with an unreadable attribute (`resolution`). -/
def failAttrSet : ObjectSet :=
  { name := "|fail", shortName := "fail", hasId := true,
    idValue := PyVal.str "pyblish.avalon.instance", hasFamily := true,
    userAttrs := [("family", some (PyVal.str "model")), ("resolution", Option.none)],
    members := some ["|x"] }

/-- A marked objectSet with both an `active` attribute and an unreadable
attribute literally named `publish`. -/
def c5Set : ObjectSet :=
  { name := "|c5", shortName := "c5", hasId := true,
    idValue := PyVal.str "pyblish.avalon.instance", hasFamily := true,
    userAttrs := [("family", some (PyVal.str "f")),
                  ("active", some (PyVal.bool true)),
                  ("publish", Option.none)],
    members := some ["|m"] }

/-- The scene of `c5Set`. -/
def c5Scene : Scene := idScene [c5Set]

/-- A marked objectSet whose `families` attribute sorts before, but whose
`family` attribute sorts after, the next set. -/
def c4SetA : ObjectSet :=
  { name := "|setA", shortName := "setA", hasId := true,
    idValue := PyVal.str "pyblish.avalon.instance", hasFamily := true,
    userAttrs := [("family", some (PyVal.str "z")), ("families", some (PyVal.str "a"))],
    members := some ["|m1"] }

/-- A marked objectSet with only a `family` attribute. -/
def c4SetB : ObjectSet :=
  { name := "|setB", shortName := "setB", hasId := true,
    idValue := PyVal.str "pyblish.avalon.instance", hasFamily := true,
    userAttrs := [("family", some (PyVal.str "b"))],
    members := some ["|m2"] }

/-- The two-set scene refuting the claim that the context ends up ordered
by the `family` attribute. -/
def c4Scene : Scene := idScene [c4SetA, c4SetB]

/-- The state `CollectInstances.process` produces on `c4Scene`. -/
def c4Result : St :=
  match CollectInstances.process c4Scene { context := [], logs := [] } with
  | Except.ok st => st
  | Except.error _ => { context := [], logs := [] }

/-- The family of an instance as the claim words it: the value of the
`family` key of its data (`None` when absent). -/
def claimedFamilyOf (inst : Instance) : PyVal :=
  match Dict.get inst.data "family" with
  | some v => v
  | Option.none => PyVal.none

/-! ### Order lemmas for the Python 2 comparators -/

theorem lexLT_irrefl (lt : α → α → Bool) (hIrr : ∀ a, lt a a = false)
    (l : List α) : lexLT lt l l = false := by
  induction l with
  | nil => rfl
  | cons x xs ih => simp [lexLT, hIrr, ih]

theorem lexLT_trans (lt : α → α → Bool)
    (hTrans : ∀ a b c, lt a b = true → lt b c = true → lt a c = true)
    (hConnex : ∀ a b, lt a b = false → lt b a = false → a = b)
    (a b c : List α) (h1 : lexLT lt a b = true) (h2 : lexLT lt b c = true) :
    lexLT lt a c = true := by
  induction a generalizing b c with
  | nil =>
    cases b with
    | nil => simp [lexLT] at h1
    | cons y ys =>
      cases c with
      | nil => simp [lexLT] at h2
      | cons z zs => simp [lexLT]
  | cons x xs ih =>
    cases b with
    | nil => simp [lexLT] at h1
    | cons y ys =>
      cases c with
      | nil => simp [lexLT] at h2
      | cons z zs =>
        simp only [lexLT] at h1 h2 ⊢
        by_cases hxy : lt x y = true
        · by_cases hyz : lt y z = true
          · simp [hTrans x y z hxy hyz]
          · by_cases hzy : lt z y = true
            · rw [if_neg (by simp [hyz]), if_pos hzy] at h2
              exact absurd h2 (by simp)
            · have hyz0 : lt y z = false := by simpa using hyz
              have hzy0 : lt z y = false := by simpa using hzy
              have : y = z := hConnex y z hyz0 hzy0
              subst this
              simp [hxy]
        · by_cases hyx : lt y x = true
          · rw [if_neg hxy, if_pos hyx] at h1
            exact absurd h1 (by simp)
          · have hxy0 : lt x y = false := by simpa using hxy
            have hyx0 : lt y x = false := by simpa using hyx
            have : x = y := hConnex x y hxy0 hyx0
            subst this
            rw [if_neg hxy, if_neg hyx] at h1
            by_cases hxz : lt x z = true
            · simp [hxz]
            · by_cases hzx : lt z x = true
              · rw [if_neg (by simp [hxz]), if_pos hzx] at h2
                exact absurd h2 (by simp)
              · have hxz0 : lt x z = false := by simpa using hxz
                have hzx0 : lt z x = false := by simpa using hzx
                have : x = z := hConnex x z hxz0 hzx0
                subst this
                rw [if_neg hxz, if_neg hzx] at h2
                rw [if_neg hxz, if_neg hzx]
                exact ih ys zs h1 h2

theorem lexLT_connex (lt : α → α → Bool)
    (hConnex : ∀ a b, lt a b = false → lt b a = false → a = b)
    (a b : List α) (h1 : lexLT lt a b = false) (h2 : lexLT lt b a = false) :
    a = b := by
  induction a generalizing b with
  | nil =>
    cases b with
    | nil => rfl
    | cons y ys => simp [lexLT] at h1
  | cons x xs ih =>
    cases b with
    | nil => simp [lexLT] at h2
    | cons y ys =>
      simp only [lexLT] at h1 h2
      by_cases hxy : lt x y = true
      · rw [if_pos hxy] at h1
        exact absurd h1 (by simp)
      · by_cases hyx : lt y x = true
        · rw [if_pos hyx] at h2
          exact absurd h2 (by simp)
        · have hxy0 : lt x y = false := by simpa using hxy
          have hyx0 : lt y x = false := by simpa using hyx
          have hx : x = y := hConnex x y hxy0 hyx0
          rw [if_neg hxy, if_neg hyx] at h1
          rw [if_neg hyx, if_neg hxy] at h2
          rw [hx, ih ys h1 h2]

theorem lexLT_asymm (lt : α → α → Bool)
    (hTrans : ∀ a b c, lt a b = true → lt b c = true → lt a c = true)
    (hConnex : ∀ a b, lt a b = false → lt b a = false → a = b)
    (hIrr : ∀ a, lt a a = false)
    (a b : List α) (h : lexLT lt a b = true) : lexLT lt b a = false := by
  by_contra hc
  have hba : lexLT lt b a = true := by
    cases hx : lexLT lt b a
    · exact absurd hx hc
    · rfl
  have := lexLT_trans lt hTrans hConnex a b a h hba
  rw [lexLT_irrefl lt hIrr] at this
  exact Bool.false_ne_true this

theorem charLT_irrefl (a : Char) : charLT a a = false := by simp [charLT]

theorem charLT_trans (a b c : Char) (h1 : charLT a b = true)
    (h2 : charLT b c = true) : charLT a c = true := by
  simp [charLT] at *
  omega

theorem charLT_connex (a b : Char) (h1 : charLT a b = false)
    (h2 : charLT b a = false) : a = b := by
  simp [charLT] at h1 h2
  have : a.toNat = b.toNat := by omega
  exact Char.ext (UInt32.toNat.inj this)

/-- Two strings with equal character data are equal. -/
theorem string_data_inj (s t : String) (h : s.data = t.data) : s = t := by
  cases s
  cases t
  simp_all

theorem strLT_irrefl (s : String) : strLT s s = false :=
  lexLT_irrefl charLT charLT_irrefl s.data

theorem strLT_trans (a b c : String) (h1 : strLT a b = true)
    (h2 : strLT b c = true) : strLT a c = true :=
  lexLT_trans charLT charLT_trans charLT_connex a.data b.data c.data h1 h2

theorem strLT_connex (a b : String) (h1 : strLT a b = false)
    (h2 : strLT b a = false) : a = b :=
  string_data_inj a b (lexLT_connex charLT charLT_connex a.data b.data h1 h2)

theorem strsLT_irrefl (l : List String) : strsLT l l = false :=
  lexLT_irrefl strLT strLT_irrefl l

theorem strsLT_trans (a b c : List String) (h1 : strsLT a b = true)
    (h2 : strsLT b c = true) : strsLT a c = true :=
  lexLT_trans strLT strLT_trans strLT_connex a b c h1 h2

theorem strsLT_connex (a b : List String) (h1 : strsLT a b = false)
    (h2 : strsLT b a = false) : a = b :=
  lexLT_connex strLT strLT_connex a b h1 h2

theorem compLT_irrefl (a : Comp) : compLT a a = false := by
  cases a <;> simp [compLT, strsLT_irrefl, strLT_irrefl]

theorem compLT_trans (a b c : Comp) (h1 : compLT a b = true)
    (h2 : compLT b c = true) : compLT a c = true := by
  cases a <;> cases b <;> cases c <;> simp_all [compLT] <;>
    first
      | omega
      | exact strsLT_trans _ _ _ h1 h2
      | exact strLT_trans _ _ _ h1 h2

theorem compLT_connex (a b : Comp) (h1 : compLT a b = false)
    (h2 : compLT b a = false) : a = b := by
  cases a <;> cases b <;> simp_all [compLT] <;>
    first
      | omega
      | exact strsLT_connex _ _ h1 h2
      | exact strLT_connex _ _ h1 h2

theorem pyLT_irrefl (a : PyVal) : pyLT a a = false :=
  lexLT_irrefl compLT compLT_irrefl (toComps a)

theorem pyLT_trans (a b c : PyVal) (h1 : pyLT a b = true)
    (h2 : pyLT b c = true) : pyLT a c = true :=
  lexLT_trans compLT compLT_trans compLT_connex (toComps a) (toComps b) (toComps c) h1 h2

theorem pyLT_asymm (a b : PyVal) (h : pyLT a b = true) : pyLT b a = false :=
  lexLT_asymm compLT compLT_trans compLT_connex compLT_irrefl (toComps a) (toComps b) h

/-- Totality of the modelled Python 2 `<=`. -/
theorem py2LE_total (a b : PyVal) : py2LE a b = true ∨ py2LE b a = true := by
  by_cases h : pyLT b a = true
  · right
    simp [py2LE, pyLT_asymm b a h]
  · left
    simp [py2LE]
    simpa using h

/-- Transitivity of the modelled Python 2 `<=`. -/
theorem py2LE_trans (a b c : PyVal) (h1 : py2LE a b = true)
    (h2 : py2LE b c = true) : py2LE a c = true := by
  simp only [py2LE, Bool.not_eq_true'] at h1 h2 ⊢
  by_contra hc
  have hca : pyLT c a = true := by simpa using hc
  by_cases hcb : pyLT c b = true
  · have : pyLT c b = false := h2
    simp_all
  · have hcb0 : pyLT c b = false := by simpa using hcb
    by_cases hba : pyLT b a = true
    · simp_all
    · have hba0 : pyLT b a = false := by simpa using hba
      by_cases hbc : pyLT b c = true
      · have := pyLT_trans b c a hbc hca
        simp_all
      · have hbc0 : pyLT b c = false := by simpa using hbc
        have hk : toComps b = toComps c :=
          lexLT_connex compLT compLT_connex (toComps b) (toComps c) hbc0 hcb0
        have : pyLT b a = pyLT c a := by simp [pyLT, hk]
        simp_all

instance : IsTrans Instance instanceLE :=
  ⟨fun _ _ _ h1 h2 => py2LE_trans _ _ _ h1 h2⟩

instance : IsTotal Instance instanceLE :=
  ⟨fun a b => py2LE_total (sort_by_family a) (sort_by_family b)⟩

/-! ### Dict lemmas -/

/-- The keys of a dict, in order. -/
def Dict.keys (d : Dict) : List String := d.map Prod.fst

theorem Dict.get_set_self (d : Dict) (k : String) (v : PyVal) :
    Dict.get (Dict.set d k v) k = some v := by
  induction d with
  | nil => simp [Dict.set, Dict.get]
  | cons p rest ih =>
    by_cases h : p.1 = k
    · simp [Dict.set, Dict.get, h]
    · cases p
      simp_all [Dict.set, Dict.get, h]

theorem Dict.get_set_ne (d : Dict) (k a : String) (v : PyVal) (h : k ≠ a) :
    Dict.get (Dict.set d k v) a = Dict.get d a := by
  induction d with
  | nil => simp [Dict.set, Dict.get, h]
  | cons p rest ih =>
    cases p with
    | mk k' w =>
      by_cases hk : k' = k
      · simp [Dict.set, Dict.get, hk, h]
      · simp only [Dict.set, if_neg hk, Dict.get]
        by_cases ha : k' = a
        · simp [ha]
        · simp [ha, ih]

theorem Dict.keys_set (d : Dict) (k : String) (v : PyVal) :
    Dict.keys (Dict.set d k v) = if k ∈ Dict.keys d then Dict.keys d else Dict.keys d ++ [k] := by
  induction d with
  | nil => simp [Dict.set, Dict.keys]
  | cons p rest ih =>
    cases p with
    | mk k' w =>
      by_cases hk : k' = k
      · simp [Dict.set, Dict.keys, hk]
      · simp only [Dict.set, if_neg hk, Dict.keys, List.map_cons] at *
        by_cases hmem : k ∈ List.map Prod.fst rest
        · simp [hmem, Ne.symm hk, ih]
        · simp [hmem, Ne.symm hk, ih]

theorem Dict.keysNodup_set (d : Dict) (k : String) (v : PyVal)
    (h : (Dict.keys d).Nodup) : (Dict.keys (Dict.set d k v)).Nodup := by
  rw [Dict.keys_set]
  by_cases hmem : k ∈ Dict.keys d
  · simp [hmem, h]
  · simp [hmem, h, List.nodup_append]

theorem Dict.get_eq_none_of_not_mem (d : Dict) (a : String)
    (h : a ∉ Dict.keys d) : Dict.get d a = Option.none := by
  induction d with
  | nil => rfl
  | cons p rest ih =>
    cases p with
    | mk k w =>
      simp only [Dict.keys, List.map_cons, List.mem_cons] at h
      push_neg at h
      simp [Dict.get, Ne.symm h.1, ih (by simpa [Dict.keys] using h.2)]

theorem Dict.mem_of_get_eq_some (d : Dict) (a : String) (v : PyVal)
    (h : Dict.get d a = some v) : a ∈ Dict.keys d := by
  by_contra hc
  rw [Dict.get_eq_none_of_not_mem d a hc] at h
  exact Option.noConfusion h


theorem applyUserAttrs_cons (d : Dict) (p : String × Option PyVal)
    (rest : List (String × Option PyVal)) :
    applyUserAttrs d (p :: rest) = applyUserAttrs (Dict.set d p.1 (readValue p.2)) rest := rfl

theorem updateDict_cons (d : Dict) (p : String × PyVal) (rest : Dict) :
    updateDict d (p :: rest) = updateDict (Dict.set d p.1 p.2) rest := rfl

theorem applyUserAttrs_not_mem (d : Dict) (attrs : List (String × Option PyVal))
    (a : String) (h : a ∉ attrs.map Prod.fst) :
    Dict.get (applyUserAttrs d attrs) a = Dict.get d a := by
  induction attrs generalizing d with
  | nil => rfl
  | cons p rest ih =>
    simp only [List.map_cons, List.mem_cons] at h
    push_neg at h
    rw [applyUserAttrs_cons, ih _ h.2]
    exact Dict.get_set_ne d p.1 a (readValue p.2) (fun he => h.1 he.symm)

theorem applyUserAttrs_mem (d : Dict) (attrs : List (String × Option PyVal))
    (a : String) (w : Option PyVal)
    (hnd : (attrs.map Prod.fst).Nodup) (h : (a, w) ∈ attrs) :
    Dict.get (applyUserAttrs d attrs) a = some (readValue w) := by
  induction attrs generalizing d with
  | nil => simp at h
  | cons p rest ih =>
    simp only [List.map_cons, List.nodup_cons] at hnd
    rcases List.mem_cons.mp h with heq | hrest
    · subst heq
      rw [applyUserAttrs_cons, applyUserAttrs_not_mem _ rest a hnd.1]
      exact Dict.get_set_self d a (readValue w)
    · rw [applyUserAttrs_cons]
      exact ih _ hnd.2 hrest

theorem updateDict_not_mem (d : Dict) (src : Dict) (a : String)
    (h : a ∉ Dict.keys src) :
    Dict.get (updateDict d src) a = Dict.get d a := by
  induction src generalizing d with
  | nil => rfl
  | cons p rest ih =>
    simp only [Dict.keys, List.map_cons, List.mem_cons] at h
    push_neg at h
    rw [updateDict_cons, ih _ (by simpa [Dict.keys] using h.2)]
    exact Dict.get_set_ne d p.1 a p.2 (fun he => h.1 he.symm)

theorem updateDict_mem (d : Dict) (src : Dict) (a : String) (v : PyVal)
    (hnd : (Dict.keys src).Nodup) (h : Dict.get src a = some v) :
    Dict.get (updateDict d src) a = some v := by
  induction src generalizing d with
  | nil => simp [Dict.get] at h
  | cons p rest ih =>
    cases p with
    | mk k w =>
      simp only [Dict.keys, List.map_cons, List.nodup_cons] at hnd
      rw [updateDict_cons]
      by_cases hk : k = a
      · subst hk
        simp only [Dict.get, if_pos rfl] at h
        obtain rfl := Option.some.inj h
        rw [updateDict_not_mem _ rest k (by simpa [Dict.keys] using hnd.1)]
        exact Dict.get_set_self d k w
      · simp only [Dict.get, if_neg hk] at h
        exact ih _ hnd.2 h

theorem applyActiveRemap_get_ne (d : Dict) (a : String) (h : a ≠ "publish") :
    Dict.get (applyActiveRemap d) a = Dict.get d a := by
  unfold applyActiveRemap
  cases hv : Dict.get d "active" with
  | none => rfl
  | some v => exact Dict.get_set_ne d "publish" a v (fun he => h he.symm)

theorem applyActiveRemap_publish (d : Dict) (v : PyVal)
    (h : Dict.get d "active" = some v) :
    Dict.get (applyActiveRemap d) "publish" = some v := by
  unfold applyActiveRemap
  rw [h]
  exact Dict.get_set_self d "publish" v

theorem applyActiveRemap_no_active (d : Dict)
    (h : Dict.get d "active" = Option.none) : applyActiveRemap d = d := by
  unfold applyActiveRemap
  rw [h]

theorem applyUserAttrs_keysNodup (d : Dict) (attrs : List (String × Option PyVal))
    (h : (Dict.keys d).Nodup) : (Dict.keys (applyUserAttrs d attrs)).Nodup := by
  induction attrs generalizing d with
  | nil => exact h
  | cons p rest ih =>
    rw [applyUserAttrs_cons]
    exact ih _ (Dict.keysNodup_set d p.1 (readValue p.2) h)

theorem applyActiveRemap_keysNodup (d : Dict)
    (h : (Dict.keys d).Nodup) : (Dict.keys (applyActiveRemap d)).Nodup := by
  unfold applyActiveRemap
  cases hv : Dict.get d "active" with
  | none => exact h
  | some v => exact Dict.keysNodup_set d "publish" v h

/-! ### Case analysis of the collector's loop body -/

theorem collectSet_not_marked (scene : Scene) (st : St) (s : ObjectSet)
    (h : ¬ isMarked s) : collectSet scene st s = Except.ok st := by
  cases hid : s.hasId with
  | false => simp [collectSet, hid]
  | true =>
    have hne : s.idValue ≠ PyVal.str "pyblish.avalon.instance" :=
      fun he => h ⟨hid, he⟩
    simp [collectSet, hid, hne]

theorem collectSet_missing_family (scene : Scene) (st : St) (s : ObjectSet)
    (h1 : isMarked s) (h2 : s.hasFamily = false) :
    collectSet scene st s =
      Except.error ("\"" ++ s.name ++ "\" was missing a family") := by
  simp [collectSet, h1.1, h1.2, h2]

theorem collectSet_empty_members (scene : Scene) (st : St) (s : ObjectSet)
    (h1 : isMarked s) (h2 : s.hasFamily = true) (h3 : s.members = Option.none) :
    collectSet scene st s =
      Except.ok { st with
        logs := st.logs ++ ["Skipped empty instance: \"" ++ s.name ++ "\" "] } := by
  simp [collectSet, h1.1, h1.2, h2, h3]

theorem collectSet_ok (scene : Scene) (st : St) (s : ObjectSet) (ms : List String)
    (h1 : isMarked s) (h2 : s.hasFamily = true) (h3 : s.members = some ms) :
    collectSet scene st s =
      Except.ok { context := st.context ++ [builtInstance scene s ms],
                  logs := st.logs ++
                    ["Creating instance for " ++ s.name,
                     "Found: \"" ++ foundDisplay (builtInstance scene s ms) ++ "\" "] } := by
  simp [collectSet, h1.1, h1.2, h2, h3]

theorem processSets_nil (scene : Scene) (st : St) :
    processSets scene st [] = Except.ok st := rfl

theorem processSets_cons_ok (scene : Scene) (st st1 : St) (s : ObjectSet)
    (rest : List ObjectSet) (h : collectSet scene st s = Except.ok st1) :
    processSets scene st (s :: rest) = processSets scene st1 rest := by
  simp [processSets, h]

theorem processSets_cons_error (scene : Scene) (st : St) (s : ObjectSet)
    (rest : List ObjectSet) (e : String)
    (h : collectSet scene st s = Except.error e) :
    processSets scene st (s :: rest) = Except.error e := by
  simp [processSets, h]

/-! ### String splitting and joining lemmas for `get_all_parents` -/

theorem splitOnChar_ne_nil (sep : Char) (l : List Char) :
    splitOnChar sep l ≠ [] := by
  cases l with
  | nil => simp [splitOnChar]
  | cons c cs =>
    simp only [splitOnChar]
    cases splitOnChar sep cs with
    | nil => simp
    | cons h t =>
      by_cases hc : c = sep <;> simp [hc]

theorem splitPipe_ne_nil (s : String) : splitPipe s ≠ [] := by
  unfold splitPipe
  intro h
  exact splitOnChar_ne_nil (Char.ofNat 124) s.data (List.map_eq_nil_iff.mp h)

/-- Character-level `"|".join`. -/
def joinCharsPipe : List (List Char) → List Char
  | [] => []
  | a :: rest => rest.foldl (fun acc x => acc ++ Char.ofNat 124 :: x) a

theorem foldl_joinChars_append (t : List (List Char)) (a b : List Char) :
    t.foldl (fun acc x => acc ++ Char.ofNat 124 :: x) (a ++ b) =
      a ++ t.foldl (fun acc x => acc ++ Char.ofNat 124 :: x) b := by
  induction t generalizing b with
  | nil => rfl
  | cons y ys ih =>
    simp only [List.foldl_cons]
    rw [List.append_assoc]
    exact ih (b ++ Char.ofNat 124 :: y)

theorem joinCharsPipe_splitOnChar (l : List Char) :
    joinCharsPipe (splitOnChar (Char.ofNat 124) l) = l := by
  induction l with
  | nil => rfl
  | cons c cs ih =>
    cases hr : splitOnChar (Char.ofNat 124) cs with
    | nil => exact absurd hr (splitOnChar_ne_nil _ cs)
    | cons h t =>
      rw [hr] at ih
      by_cases hc : c = Char.ofNat 124
      · have hstep : splitOnChar (Char.ofNat 124) (c :: cs) = [] :: h :: t := by
          simp [splitOnChar, hr, hc]
        rw [hstep]
        show (h :: t).foldl (fun acc x => acc ++ Char.ofNat 124 :: x) [] = c :: cs
        rw [List.foldl_cons]
        have hsplit : ([] : List Char) ++ Char.ofNat 124 :: h = [Char.ofNat 124] ++ h := rfl
        rw [hsplit, foldl_joinChars_append]
        show Char.ofNat 124 :: joinCharsPipe (h :: t) = c :: cs
        rw [ih, hc]
      · have hstep : splitOnChar (Char.ofNat 124) (c :: cs) = (c :: h) :: t := by
          simp [splitOnChar, hr, hc]
        rw [hstep]
        show t.foldl (fun acc x => acc ++ Char.ofNat 124 :: x) (c :: h) = c :: cs
        have hsplit : c :: h = [c] ++ h := rfl
        rw [hsplit, foldl_joinChars_append]
        show c :: joinCharsPipe (h :: t) = c :: cs
        rw [ih]

theorem data_joinPipe_map_mk (l : List (List Char)) :
    (joinPipe (l.map fun d => String.mk d)).data = joinCharsPipe l := by
  cases l with
  | nil => rfl
  | cons a rest =>
    show ((rest.map fun d => String.mk d).foldl
      (fun acc x => acc ++ "|" ++ x) (String.mk a)).data =
      rest.foldl (fun acc x => acc ++ Char.ofNat 124 :: x) a
    induction rest generalizing a with
    | nil => rfl
    | cons x xs ih =>
      simp only [List.map_cons, List.foldl_cons]
      have hdata : (String.mk a ++ "|" ++ String.mk x) = String.mk (a ++ Char.ofNat 124 :: x) := by
        apply string_data_inj
        simp
      rw [hdata]
      exact ih (a ++ Char.ofNat 124 :: x)

/-- Joining the pipe-split components of a path recovers the path. -/
theorem joinPipe_splitPipe (s : String) : joinPipe (splitPipe s) = s := by
  apply string_data_inj
  unfold splitPipe
  rw [data_joinPipe_map_mk, joinCharsPipe_splitOnChar]

theorem joinPipe_foldl_length (rest : List String) (acc : String) :
    ((rest.foldl (fun acc x => acc ++ "|" ++ x) acc)).length =
      acc.length + rest.length + (rest.map String.length).sum := by
  induction rest generalizing acc with
  | nil => simp
  | cons x xs ih =>
    simp only [List.foldl_cons, List.map_cons, List.sum_cons, List.length_cons]
    rw [ih, String.length_append, String.length_append]
    have h1 : ("|" : String).length = 1 := rfl
    omega

theorem joinPipe_length (a : String) (rest : List String) :
    (joinPipe (a :: rest)).length =
      a.length + rest.length + (rest.map String.length).sum := by
  simp [joinPipe, joinPipe_foldl_length]

theorem joinPipe_length_of_ne_nil (l : List String) (h : l ≠ []) :
    (joinPipe l).length = (l.map String.length).sum + (l.length - 1) := by
  cases l with
  | nil => exact absurd rfl h
  | cons a rest =>
    rw [joinPipe_length]
    simp
    omega

theorem nodeParents_def (node : String) :
    nodeParents node =
      (List.range' 2 ((splitPipe node).length - 2)).map
        (fun i => joinPipe ((splitPipe node).take i)) := rfl

theorem mem_nodeParents (node x : String) :
    x ∈ nodeParents node ↔
      ∃ i, 2 ≤ i ∧ i < (splitPipe node).length ∧
        x = joinPipe ((splitPipe node).take i) := by
  rw [nodeParents_def, List.mem_map]
  constructor
  · rintro ⟨i, hi, rfl⟩
    rw [List.mem_range'] at hi
    obtain ⟨j, hj, rfl⟩ := hi
    exact ⟨2 + 1 * j, by omega, by omega, rfl⟩
  · rintro ⟨i, h2, hlen, rfl⟩
    refine ⟨i, ?_, rfl⟩
    rw [List.mem_range']
    exact ⟨i - 2, by omega, by omega⟩

theorem nodeParents_eq_nil (node : String) (h : (splitPipe node).length ≤ 2) :
    nodeParents node = [] := by
  rw [nodeParents_def]
  have hz : (splitPipe node).length - 2 = 0 := by omega
  rw [hz]
  rfl

theorem mem_get_all_parents (nodes : List String) (x : String) :
    x ∈ CollectInstances.get_all_parents nodes ↔
      ∃ node ∈ nodes, x ∈ nodeParents node := by
  unfold CollectInstances.get_all_parents
  rw [List.mem_dedup]
  have hfold : ∀ (ns : List String) (acc : List String),
      ns.foldl (fun parents node => parents ++ nodeParents node) acc =
        acc ++ (ns.map nodeParents).flatten := by
    intro ns
    induction ns with
    | nil => intro acc; simp
    | cons n rest ih =>
      intro acc
      simp only [List.foldl_cons, List.map_cons, List.flatten]
      rw [ih]
      simp
  rw [hfold nodes []]
  simp [List.mem_flatten]

theorem nodup_get_all_parents (nodes : List String) :
    (CollectInstances.get_all_parents nodes).Nodup :=
  List.nodup_dedup _

theorem nodeParents_ne_self_and_ne_empty (node x : String)
    (hx : x ∈ nodeParents node) : x ≠ node ∧ x ≠ "" := by
  rw [mem_nodeParents] at hx
  obtain ⟨i, h2, hlen, rfl⟩ := hx
  have hne : splitPipe node ≠ [] := splitPipe_ne_nil node
  have htake_ne : (splitPipe node).take i ≠ [] := by
    intro hcon
    have hl := congrArg List.length hcon
    rw [List.length_take] at hl
    simp only [List.length_nil] at hl
    omega
  have htakelen : ((splitPipe node).take i).length = i := by
    simp
    omega
  have hxlen : (joinPipe ((splitPipe node).take i)).length =
      (((splitPipe node).take i).map String.length).sum + (i - 1) := by
    rw [joinPipe_length_of_ne_nil _ htake_ne, htakelen]
  have hnodelen : node.length =
      ((splitPipe node).map String.length).sum + ((splitPipe node).length - 1) := by
    conv_lhs => rw [← joinPipe_splitPipe node]
    exact joinPipe_length_of_ne_nil _ hne
  have hsum : (((splitPipe node).take i).map String.length).sum ≤
      ((splitPipe node).map String.length).sum := by
    rw [List.map_take]
    have := List.sum_take_add_sum_drop ((splitPipe node).map String.length) i
    omega
  constructor
  · intro hcon
    have := congrArg String.length hcon
    rw [hxlen, hnodelen] at this
    omega
  · intro hcon
    have := congrArg String.length hcon
    rw [hxlen] at this
    have hz : String.length "" = 0 := rfl
    rw [hz] at this
    omega

/-! ### Properties of the collected data dict -/

theorem collectData_keysNodup (s : ObjectSet) :
    (Dict.keys (collectData s)).Nodup :=
  applyActiveRemap_keysNodup _
    (applyUserAttrs_keysNodup [] s.userAttrs (by simp [Dict.keys]))

theorem collectData_get_attr (s : ObjectSet) (a : String) (w : Option PyVal)
    (hnd : (s.userAttrs.map Prod.fst).Nodup)
    (h : (a, w) ∈ s.userAttrs) (hp : a ≠ "publish") :
    Dict.get (collectData s) a = some (readValue w) := by
  unfold collectData
  rw [applyActiveRemap_get_ne _ _ hp]
  exact applyUserAttrs_mem [] s.userAttrs a w hnd h

theorem collectData_get_not_mem (s : ObjectSet) (a : String)
    (h : a ∉ s.userAttrs.map Prod.fst) (hp : a ≠ "publish") :
    Dict.get (collectData s) a = Option.none := by
  unfold collectData
  rw [applyActiveRemap_get_ne _ _ hp, applyUserAttrs_not_mem [] s.userAttrs a h]
  rfl

theorem collectData_no_active (s : ObjectSet)
    (h : "active" ∉ s.userAttrs.map Prod.fst) :
    collectData s = applyUserAttrs [] s.userAttrs := by
  unfold collectData
  apply applyActiveRemap_no_active
  rw [applyUserAttrs_not_mem [] s.userAttrs "active" h]
  rfl

theorem builtInstance_data_get (scene : Scene) (s : ObjectSet) (ms : List String)
    (a : String) (v : PyVal) (h : Dict.get (collectData s) a = some v) :
    Dict.get (builtInstance scene s ms).data a = some v :=
  updateDict_mem _ _ a v (collectData_keysNodup s) h

/-! ### Claim theorems -/

/-- C1: for every objectSet found in the scene scan, the collector's loop
body creates an instance only for sets whose `id` attribute exists and
holds exactly `"pyblish.avalon.instance"`; any other objectSet is skipped
leaving the whole collector state (context and logs) unchanged. -/
theorem C1_only_marked_collected (scene : Scene) (st : St) (s : ObjectSet)
    (_hs : s ∈ scene.sets) (h : ¬ isMarked s) :
    collectSet scene st s = Except.ok st :=
  collectSet_not_marked scene st s h

theorem C1_witness :
    unmarkedSet ∈ (idScene [unmarkedSet]).sets ∧
    collectSet (idScene [unmarkedSet]) { context := [], logs := [] } unmarkedSet =
      Except.ok { context := [], logs := [] } :=
  ⟨by decide,
   C1_only_marked_collected (idScene [unmarkedSet]) { context := [], logs := [] }
     unmarkedSet (by decide) (by decide)⟩

/-- C3: a marked objectSet without a `family` attribute makes the loop
abort with an assertion error naming that set, regardless of the sets
still to be processed: no instance is created and no later set is
reached. -/
theorem C3_missing_family_aborts (scene : Scene) (st : St) (s : ObjectSet)
    (post : List ObjectSet) (h1 : isMarked s) (h2 : s.hasFamily = false) :
    processSets scene st (s :: post) =
      Except.error ("\"" ++ s.name ++ "\" was missing a family") :=
  processSets_cons_error scene st s post _
    (collectSet_missing_family scene st s h1 h2)

theorem C3_witness :
    processSets (idScene [noFamilySet, demoSet]) { context := [], logs := [] }
        [noFamilySet, demoSet] =
      Except.error ("\"" ++ noFamilySet.name ++ "\" was missing a family") :=
  C3_missing_family_aborts (idScene [noFamilySet, demoSet])
    { context := [], logs := [] } noFamilySet [demoSet] (by decide) (by decide)

/-- C6: a marked objectSet with a family whose member query returned no
members is skipped with a warning log: the context is unchanged, no
instance is created, and the loop continues with the remaining sets. -/
theorem C6_empty_set_skipped (scene : Scene) (st : St) (s : ObjectSet)
    (post : List ObjectSet) (h1 : isMarked s) (h2 : s.hasFamily = true)
    (h3 : s.members = Option.none) :
    collectSet scene st s =
      Except.ok { st with
        logs := st.logs ++ ["Skipped empty instance: \"" ++ s.name ++ "\" "] } ∧
    processSets scene st (s :: post) =
      processSets scene
        { st with
          logs := st.logs ++ ["Skipped empty instance: \"" ++ s.name ++ "\" "] }
        post := by
  have hc := collectSet_empty_members scene st s h1 h2 h3
  exact ⟨hc, processSets_cons_ok scene st _ s post hc⟩

theorem C6_witness :
    collectSet (idScene [emptySet, demoSet]) { context := [], logs := [] } emptySet =
      Except.ok { context := ([] : List Instance),
                  logs := [] ++ ["Skipped empty instance: \"" ++ emptySet.name ++ "\" "] } ∧
    processSets (idScene [emptySet, demoSet]) { context := [], logs := [] }
        [emptySet, demoSet] =
      processSets (idScene [emptySet, demoSet])
        { context := ([] : List Instance),
          logs := [] ++ ["Skipped empty instance: \"" ++ emptySet.name ++ "\" "] }
        [demoSet] := by
  have h := C6_empty_set_skipped (idScene [emptySet, demoSet])
    { context := [], logs := [] } emptySet [demoSet] (by decide) (by decide) (by decide)
  exact ⟨h.1, h.2⟩

/-- C8: the rig creator first creates the primary grouping object via the
shared creator base behavior, then creates a second empty grouping object
named `input_SET` and force-adds it into the first; exactly these two new
scene objects (and the one forced membership) are its side effect. -/
theorem C8_creator_two_sets (instName : String) (st : MayaState) :
    CreateYetiRig.process instName st =
      { createdSets := st.createdSets ++ [instName, "input_SET"],
        membership := st.membership ++ [("input_SET", instName)] } := by
  unfold CreateYetiRig.process baseCreatorProcess sets_create_empty sets_forceElement
  simp

/-- C9: the ancestors `get_all_parents` contributes for each node path are
exactly the proper path prefixes joining the first `i` pipe-separated
components for `2 ≤ i < ` component count; the node's own full path and
the empty root prefix are never contributed, the result is deduplicated,
and a path with fewer than three components contributes nothing. -/
theorem C9_get_all_parents_characterisation (nodes : List String) :
    (CollectInstances.get_all_parents nodes).Nodup ∧
    (∀ x, x ∈ CollectInstances.get_all_parents nodes ↔
      ∃ node ∈ nodes, ∃ i, 2 ≤ i ∧ i < (splitPipe node).length ∧
        x = joinPipe ((splitPipe node).take i)) ∧
    (∀ node, ∀ x ∈ nodeParents node, x ≠ node ∧ x ≠ "") ∧
    (∀ node, (splitPipe node).length ≤ 2 → nodeParents node = []) := by
  refine ⟨nodup_get_all_parents nodes, ?_, ?_, ?_⟩
  · intro x
    rw [mem_get_all_parents]
    constructor
    · rintro ⟨node, hn, hx⟩
      exact ⟨node, hn, (mem_nodeParents node x).mp hx⟩
    · rintro ⟨node, hn, hx⟩
      exact ⟨node, hn, (mem_nodeParents node x).mpr hx⟩
  · intro node x hx
    exact nodeParents_ne_self_and_ne_empty node x hx
  · intro node h
    exact nodeParents_eq_nil node h

theorem C9_witness : "|a" ∈ CollectInstances.get_all_parents ["|a|b|c"] := by
  have h := (C9_get_all_parents_characterisation ["|a|b|c"]).2.1 "|a"
  exact h.mpr ⟨"|a|b|c", by decide, 2, by decide, by decide, by decide⟩

theorem builtInstance_nodes (scene : Scene) (s : ObjectSet) (ms : List String) :
    (builtInstance scene s ms).nodes =
      (scene.lsLong ms ++
        scene.lsNoIntermediate (scene.listDescendents (scene.lsLong ms)) ++
        CollectInstances.get_all_parents (scene.lsLong ms)).dedup := rfl

/-- C2: for every marked objectSet with a family and a non-empty member
list, the node list of the created instance is exactly (without
duplicates) the union of the long-path members, all their descendants
(structural query), and all their ancestors as computed by the
string-splitting `get_all_parents`. -/
theorem C2_hierarchy_union (scene : Scene) (st : St) (s : ObjectSet)
    (ms : List String) (h1 : isMarked s) (h2 : s.hasFamily = true)
    (h3 : s.members = some ms) :
    ∃ st', collectSet scene st s = Except.ok st' ∧
      st'.context = st.context ++ [builtInstance scene s ms] ∧
      (builtInstance scene s ms).nodes.Nodup ∧
      (∀ x, x ∈ (builtInstance scene s ms).nodes ↔
        (x ∈ scene.lsLong ms ∨
         x ∈ scene.lsNoIntermediate (scene.listDescendents (scene.lsLong ms)) ∨
         x ∈ CollectInstances.get_all_parents (scene.lsLong ms))) := by
  refine ⟨_, collectSet_ok scene st s ms h1 h2 h3, rfl, ?_, ?_⟩
  · rw [builtInstance_nodes]
    exact List.nodup_dedup _
  · intro x
    rw [builtInstance_nodes, List.mem_dedup]
    simp [or_assoc]

theorem C2_witness :
    ∃ st', collectSet (idScene [demoSet]) { context := [], logs := [] } demoSet =
        Except.ok st' ∧
      st'.context = [] ++ [builtInstance (idScene [demoSet]) demoSet ["|grp|mesh"]] ∧
      (builtInstance (idScene [demoSet]) demoSet ["|grp|mesh"]).nodes.Nodup ∧
      (∀ x, x ∈ (builtInstance (idScene [demoSet]) demoSet ["|grp|mesh"]).nodes ↔
        (x ∈ (idScene [demoSet]).lsLong ["|grp|mesh"] ∨
         x ∈ (idScene [demoSet]).lsNoIntermediate
               ((idScene [demoSet]).listDescendents
                 ((idScene [demoSet]).lsLong ["|grp|mesh"])) ∨
         x ∈ CollectInstances.get_all_parents
               ((idScene [demoSet]).lsLong ["|grp|mesh"]))) :=
  C2_hierarchy_union (idScene [demoSet]) { context := [], logs := [] } demoSet
    ["|grp|mesh"] (by decide) (by decide) (by decide)

/-- C10: for every marked objectSet being collected, the created instance's
name is the set's short name, unless a user-defined attribute literally
named `name` exists, in which case its (possibly `None`) read value is
used instead. -/
theorem C10_instance_name (scene : Scene) (st : St) (s : ObjectSet)
    (ms : List String) (h1 : isMarked s) (h2 : s.hasFamily = true)
    (h3 : s.members = some ms)
    (hnd : (s.userAttrs.map Prod.fst).Nodup) :
    ∃ st', collectSet scene st s = Except.ok st' ∧
      st'.context = st.context ++ [builtInstance scene s ms] ∧
      ("name" ∉ s.userAttrs.map Prod.fst →
        (builtInstance scene s ms).name = PyVal.str s.shortName) ∧
      (∀ v, ("name", v) ∈ s.userAttrs →
        (builtInstance scene s ms).name = readValue v) := by
  refine ⟨_, collectSet_ok scene st s ms h1 h2 h3, rfl, ?_, ?_⟩
  · intro hnm
    show instanceName s = _
    unfold instanceName
    rw [collectData_get_not_mem s "name" hnm (by decide)]
  · intro v hv
    show instanceName s = _
    unfold instanceName
    rw [collectData_get_attr s "name" v hnd hv (by decide)]

theorem C10_witness :
    ∃ st', collectSet (idScene [demoSet]) { context := [], logs := [] } demoSet =
        Except.ok st' ∧
      st'.context = [] ++ [builtInstance (idScene [demoSet]) demoSet ["|grp|mesh"]] ∧
      ("name" ∉ demoSet.userAttrs.map Prod.fst →
        (builtInstance (idScene [demoSet]) demoSet ["|grp|mesh"]).name =
          PyVal.str demoSet.shortName) ∧
      (∀ v, ("name", v) ∈ demoSet.userAttrs →
        (builtInstance (idScene [demoSet]) demoSet ["|grp|mesh"]).name = readValue v) :=
  C10_instance_name (idScene [demoSet]) { context := [], logs := [] } demoSet
    ["|grp|mesh"] (by decide) (by decide) (by decide) (by decide)

/-- C7: for every marked objectSet being collected whose user-defined
attributes include `active`, the created instance's data maps `publish`
to the value read for `active`; and when `active` is absent the remapping
step leaves the data dict untouched, introducing no `publish` key. -/
theorem C7_active_publish_remap (scene : Scene) (st : St) (s : ObjectSet)
    (ms : List String) (h1 : isMarked s) (h2 : s.hasFamily = true)
    (h3 : s.members = some ms)
    (hnd : (s.userAttrs.map Prod.fst).Nodup) :
    ∃ st', collectSet scene st s = Except.ok st' ∧
      st'.context = st.context ++ [builtInstance scene s ms] ∧
      (∀ v, ("active", v) ∈ s.userAttrs →
        Dict.get (builtInstance scene s ms).data "publish" = some (readValue v)) ∧
      (∀ d : Dict, "active" ∉ Dict.keys d → applyActiveRemap d = d) := by
  refine ⟨_, collectSet_ok scene st s ms h1 h2 h3, rfl, ?_, ?_⟩
  · intro v hv
    apply builtInstance_data_get
    unfold collectData
    exact applyActiveRemap_publish _ _
      (applyUserAttrs_mem [] s.userAttrs "active" v hnd hv)
  · intro d hd
    exact applyActiveRemap_no_active d (Dict.get_eq_none_of_not_mem d "active" hd)

theorem C7_witness :
    ∃ st', collectSet (idScene [activeSet]) { context := [], logs := [] } activeSet =
        Except.ok st' ∧
      st'.context = [] ++ [builtInstance (idScene [activeSet]) activeSet ["|a"]] ∧
      (∀ v, ("active", v) ∈ activeSet.userAttrs →
        Dict.get (builtInstance (idScene [activeSet]) activeSet ["|a"]).data "publish" =
          some (readValue v)) ∧
      (∀ d : Dict, "active" ∉ Dict.keys d → applyActiveRemap d = d) :=
  C7_active_publish_remap (idScene [activeSet]) { context := [], logs := [] }
    activeSet ["|a"] (by decide) (by decide) (by decide) (by decide)

/-- C5 counterexample: on `c5Set` the attribute literally named `publish`
is unreadable (its read raises), yet the created instance's data maps
`publish` to `True` — the value of `active` written by the legacy remap —
and not to a null value, refuting the claim as stated. -/
theorem C5_counterexample :
    ("publish", Option.none) ∈ c5Set.userAttrs ∧
    (collectSet c5Scene { context := [], logs := [] } c5Set).toOption.map St.context =
      some [builtInstance c5Scene c5Set ["|m"]] ∧
    Dict.get (builtInstance c5Scene c5Set ["|m"]).data "publish" =
      some (PyVal.bool true) ∧
    Dict.get (builtInstance c5Scene c5Set ["|m"]).data "publish" ≠
      some PyVal.none := by
  refine ⟨by decide, by decide, by decide, by decide⟩

/-- C5 (amended): for every marked objectSet being collected, an attribute
whose read raises is degraded to a null value in the instance's data and
collection succeeds without propagating the error — unless the attribute
is literally named `publish` while an `active` attribute is also present,
in which case the legacy active-to-publish remap overwrites the null. -/
theorem C5_unreadable_attr_defaults_none (scene : Scene) (st : St)
    (s : ObjectSet) (ms : List String) (a : String)
    (h1 : isMarked s) (h2 : s.hasFamily = true) (h3 : s.members = some ms)
    (hnd : (s.userAttrs.map Prod.fst).Nodup)
    (ha : (a, Option.none) ∈ s.userAttrs)
    (hp : a ≠ "publish" ∨ "active" ∉ s.userAttrs.map Prod.fst) :
    ∃ st', collectSet scene st s = Except.ok st' ∧
      st'.context = st.context ++ [builtInstance scene s ms] ∧
      Dict.get (builtInstance scene s ms).data a = some PyVal.none := by
  refine ⟨_, collectSet_ok scene st s ms h1 h2 h3, rfl, ?_⟩
  apply builtInstance_data_get
  rcases hp with hp | hp
  · rw [collectData_get_attr s a Option.none hnd ha hp]
    rfl
  · rw [collectData_no_active s hp]
    rw [applyUserAttrs_mem [] s.userAttrs a Option.none hnd ha]
    rfl

theorem C5_witness :
    ∃ st', collectSet (idScene [failAttrSet]) { context := [], logs := [] }
        failAttrSet = Except.ok st' ∧
      st'.context = [] ++ [builtInstance (idScene [failAttrSet]) failAttrSet ["|x"]] ∧
      Dict.get (builtInstance (idScene [failAttrSet]) failAttrSet ["|x"]).data
        "resolution" = some PyVal.none :=
  C5_unreadable_attr_defaults_none (idScene [failAttrSet])
    { context := [], logs := [] } failAttrSet ["|x"] "resolution"
    (by decide) (by decide) (by decide) (by decide) (by decide)
    (Or.inl (by decide))

/-- C4 counterexample: on `c4Scene` the collector completes normally, but
the resulting context is not ordered non-decreasingly by the `family`
attribute: the first instance has family `"z"`, the second `"b"`, because
the sort key prefers a `families` attribute over `family`. -/
theorem C4_counterexample :
    CollectInstances.process c4Scene { context := [], logs := [] } =
      Except.ok c4Result ∧
    c4Result.context.map claimedFamilyOf = [PyVal.str "z", PyVal.str "b"] ∧
    py2LE (PyVal.str "z") (PyVal.str "b") = false ∧
    ¬ List.Chain' (fun a b => py2LE (claimedFamilyOf a) (claimedFamilyOf b) = true)
        c4Result.context := by
  refine ⟨rfl, by decide, by decide, ?_⟩
  have hctx : c4Result.context.map claimedFamilyOf =
      [PyVal.str "z", PyVal.str "b"] := by decide
  intro hch
  cases hc : c4Result.context with
  | nil => rw [hc] at hctx; simp at hctx
  | cons a t =>
    cases t with
    | nil => rw [hc] at hctx; simp at hctx
    | cons b t2 =>
      rw [hc] at hctx hch
      simp only [List.map_cons, List.cons.injEq] at hctx
      have hR := (List.chain'_cons.mp hch).1
      rw [hctx.1, hctx.2.1] at hR
      exact absurd hR (by decide)

/-- C4 (amended): after the collector's process completes normally, the
instances in the context are ordered non-decreasingly by the sort key
`data.get("families", data.get("family"))` under the modelled Python 2
comparison; ordering by the `family` attribute alone is not guaranteed
when a `families` attribute is present. -/
theorem C4_sorted_by_families_key (scene : Scene) (st st' : St)
    (h : CollectInstances.process scene st = Except.ok st') :
    st'.context.Sorted instanceLE := by
  unfold CollectInstances.process at h
  cases hps : processSets scene st scene.sets with
  | error e =>
    rw [hps] at h
    cases h
  | ok st1 =>
    rw [hps] at h
    injection h with h'
    subst h'
    exact List.sorted_insertionSort instanceLE st1.context

theorem C4_sorted_witness : c4Result.context.Sorted instanceLE :=
  C4_sorted_by_families_key c4Scene { context := [], logs := [] } c4Result (by rfl)
